import Mathlib

/-!
Verification of the AT session multiplexer, PDU codec and schedule
controller of the `at-webserver` daemon (`src/at-webserver/src/`), as a
shallow embedding in Lean.

Modelling conventions:
* the modem byte stream is ASCII in every observable behaviour, so bytes
  held in the actor's line buffer are modelled as `Char` lists (Rust's
  `String::from_utf8_lossy` is the identity on ASCII, and Rust's
  `str::trim` agrees with ASCII whitespace trimming there);
* PDU bytes are `Nat` below 256 (every byte producing operation is total
  and no intermediate value can overflow the Rust `u8`/`u16` it lives in,
  as noted at each definition);
* fallible Rust functions returning `anyhow::Result` are embedded as
  `Except String`;
* the impure clock read (`chrono::Utc::now`, used by the PDU timestamp
  fallback) is passed in explicitly as a `now` argument;
* the actor's effects (the one-shot reply channel, the URC queue) are
  collected as lists in the result structure: `replies` records every
  value passed to `reply_tx.send`, `urcs` every value passed to
  `urc_tx.send`, in order.
-/

/-! ## String helpers mirroring the Rust `str` operations used by the code -/

/-- `listStartsWith l p`: the list `l` starts with `p` (Rust `str::starts_with`
on the underlying characters). -/
def listStartsWith : List Char → List Char → Bool
  | _, [] => true
  | [], _ :: _ => false
  | a :: as, b :: bs => a = b && listStartsWith as bs

/-- Rust `str::starts_with(pat)` for string patterns. -/
def strStarts (s pat : String) : Bool :=
  listStartsWith s.toList pat.toList

/-- `hasSub p l`: some suffix of `l` starts with `p`. -/
def hasSub (p : List Char) : List Char → Bool
  | [] => listStartsWith [] p
  | c :: r => listStartsWith (c :: r) p || hasSub p r

/-- Rust `str::contains(pat)` for string patterns: substring containment. -/
def strContains (s pat : String) : Bool :=
  hasSub pat.toList s.toList

/-- The whitespace class used by Rust's `str::trim` (`char::is_whitespace`),
restricted to its ASCII members — the only ones a modem line can hold. -/
def isTrimWs (c : Char) : Bool :=
  c = ' ' || c = '\t' || c = '\n' || c = '\r' || c = '\x0B' || c = '\x0C'

/-- Rust `str::trim` on a character list. -/
def trimChars (l : List Char) : List Char :=
  ((l.dropWhile isTrimWs).reverse.dropWhile isTrimWs).reverse

/-- Rust `str::trim` returning a `String`. -/
def strTrim (s : String) : String :=
  String.mk (trimChars s.toList)

/-- `str::split(sep)` on a character list: `splitChar ',' "a,b"` is
`["a", "b"]`; the empty input yields one empty piece, as in Rust. -/
def splitChar (sep : Char) : List Char → List (List Char)
  | [] => [[]]
  | c :: r =>
      let res := splitChar sep r
      if c = sep then [] :: res
      else
        match res with
        | [] => [[c]]
        | l :: ls => (c :: l) :: ls

/-- `Vec::join(sep)` / `[..].join(sep)`. -/
def joinSep (sep : String) : List String → String
  | [] => ""
  | [x] => x
  | x :: xs => x ++ sep ++ joinSep sep xs

/-! ## URC classifier (src/at-webserver/src/handlers.rs, `can_handle` of each
registered handler, and src/at-webserver/src/client.rs `ATClientActor::is_urc`) -/

/-- `CallHandler::can_handle` (handlers.rs). -/
def CallHandler_can_handle (line : String) : Bool :=
  strContains line "RING" || strContains line "+CLIP:"

/-- `MemoryFullHandler::can_handle` (handlers.rs). -/
def MemoryFullHandler_can_handle (line : String) : Bool :=
  strContains line "+CIEV: \"MESSAGE\",0" || strContains line "+CMS ERROR: 322"

/-- `NewSMSHandler::can_handle` (handlers.rs). -/
def NewSMSHandler_can_handle (line : String) : Bool :=
  strContains line "+CMTI:"

/-- `PDCPDataHandler::can_handle` (handlers.rs). -/
def PDCPDataHandler_can_handle (line : String) : Bool :=
  strStarts line "^PDCPDATAINFO:"

/-- `NetworkSignalHandler::can_handle` (handlers.rs). -/
def NetworkSignalHandler_can_handle (line : String) : Bool :=
  strContains line "^CERSSI:" || strContains line "^HCSQ:"

/-- `ATClientActor::is_urc` (client.rs): short-circuit OR over the handler
list registered in `ATClientActor::new`, in registration order. -/
def is_urc (line : String) : Bool :=
  CallHandler_can_handle line || MemoryFullHandler_can_handle line ||
    NewSMSHandler_can_handle line || PDCPDataHandler_can_handle line ||
    NetworkSignalHandler_can_handle line

/-! ## Schedule controller (src/at-webserver/src/schedule.rs) -/

/-- The night classification computed inside `get_current_mode`
(schedule.rs): times are instants of one day, totally ordered —
`chrono::NaiveTime` in the source, `Nat` here. -/
def is_night_time (now night_start night_end : Nat) : Bool :=
  if night_start ≤ night_end then
    decide (night_start ≤ now) && decide (now < night_end)
  else
    decide (now ≥ night_start) || decide (now < night_end)

/-- `get_current_mode` (schedule.rs), with the already-parsed window bounds
passed in (the source parses two `"%H:%M"` config strings first; that parse
is outside the claims). -/
def get_current_mode (now night_start night_end : Nat)
    (night_enabled day_enabled : Bool) : Option String :=
  if is_night_time now night_start night_end then
    if night_enabled then some "night" else none
  else
    if day_enabled then some "day" else none

/-- The `split(',').map(trim).filter(non-empty)` pipeline applied by
`set_frequency_lock`, `build_lte_command` and `build_nr_command`
(schedule.rs) to each comma-separated list string. -/
def split_list (s : String) : List String :=
  ((splitChar ',' s.toList).map (fun l => String.mk (trimChars l))).filter
    (fun x => x ≠ "")

/-- `build_lte_command` (schedule.rs). `bands` arrives already split (as in
`set_frequency_lock`); `arfcns` and `pcis` are the raw comma-separated
strings, split inside. -/
def build_lte_command (lock_type : Nat) (bands : List String)
    (arfcns pcis : String) : String :=
  if lock_type = 3 then
    "AT^LTEFREQLOCK=3,0," ++ toString bands.length ++ ",\"" ++
      joinSep "," bands ++ "\"\r\n"
  else if lock_type = 1 then
    let arfcn_list := split_list arfcns
    if bands.length ≠ arfcn_list.length then "AT^LTEFREQLOCK=0\r\n"
    else
      "AT^LTEFREQLOCK=1,0," ++ toString bands.length ++ ",\"" ++
        joinSep "," bands ++ "\",\"" ++ joinSep "," arfcn_list ++ "\"\r\n"
  else if lock_type = 2 then
    let arfcn_list := split_list arfcns
    let pci_list := split_list pcis
    if bands.length ≠ arfcn_list.length ∨ arfcn_list.length ≠ pci_list.length then
      "AT^LTEFREQLOCK=0\r\n"
    else
      "AT^LTEFREQLOCK=2,0," ++ toString bands.length ++ ",\"" ++
        joinSep "," bands ++ "\",\"" ++ joinSep "," arfcn_list ++ "\",\"" ++
        joinSep "," pci_list ++ "\"\r\n"
  else "AT^LTEFREQLOCK=0\r\n"

/-- `build_nr_command` (schedule.rs). -/
def build_nr_command (lock_type : Nat) (bands : List String)
    (arfcns scs_types pcis : String) : String :=
  if lock_type = 3 then
    "AT^NRFREQLOCK=3,0," ++ toString bands.length ++ ",\"" ++
      joinSep "," bands ++ "\"\r\n"
  else if lock_type = 1 then
    let arfcn_list := split_list arfcns
    if bands.length ≠ arfcn_list.length then "AT^NRFREQLOCK=0\r\n"
    else
      "AT^NRFREQLOCK=1,0," ++ toString bands.length ++ ",\"" ++
        joinSep "," bands ++ "\",\"" ++ joinSep "," arfcn_list ++ "\"\r\n"
  else if lock_type = 2 then
    let arfcn_list := split_list arfcns
    let scs_list := split_list scs_types
    let pci_list := split_list pcis
    if bands.length ≠ arfcn_list.length ∨ arfcn_list.length ≠ scs_list.length ∨
        scs_list.length ≠ pci_list.length then
      "AT^NRFREQLOCK=0\r\n"
    else
      "AT^NRFREQLOCK=2,0," ++ toString bands.length ++ ",\"" ++
        joinSep "," bands ++ "\",\"" ++ joinSep "," arfcn_list ++ "\",\"" ++
        joinSep "," scs_list ++ "\",\"" ++ joinSep "," pci_list ++ "\"\r\n"
  else "AT^NRFREQLOCK=0\r\n"

/-! ## Claims C8 and C9 -/

/-- **C8.** For every night window `[s, e)` whose start is strictly after its
end (crossing midnight), `get_current_mode` classifies a time `t` as night
iff `t ≥ s ∨ t < e`; for `s ≤ e` it classifies `t` as night iff
`s ≤ t ∧ t < e` (night mode enabled, so the classification is observable as
the returned mode `"night"`). -/
theorem claim_C8_night_window (t s e : Nat) (d : Bool) :
    (e < s → ((get_current_mode t s e true d = some "night") ↔ (t ≥ s ∨ t < e)))
    ∧ (s ≤ e → ((get_current_mode t s e true d = some "night") ↔ (s ≤ t ∧ t < e))) := by
  constructor <;> intro h <;>
    · simp only [get_current_mode, is_night_time]
      split_ifs with h1 h2 <;> simp_all <;> omega

/-- **C9.** For lock type 1 or 2, when the parallel lists (bands, arfcns,
and for type 2 also pcis and, for NR, scs_types) do not all have equal
length, `build_lte_command` / `build_nr_command` emit the full unlock form. -/
theorem claim_C9_length_mismatch_unlocks (bands : List String)
    (arfcns scs_types pcis : String) :
    (bands.length ≠ (split_list arfcns).length →
        build_lte_command 1 bands arfcns pcis = "AT^LTEFREQLOCK=0\r\n"
      ∧ build_nr_command 1 bands arfcns scs_types pcis = "AT^NRFREQLOCK=0\r\n")
    ∧ (¬ (bands.length = (split_list arfcns).length ∧
          (split_list arfcns).length = (split_list pcis).length) →
        build_lte_command 2 bands arfcns pcis = "AT^LTEFREQLOCK=0\r\n")
    ∧ (¬ (bands.length = (split_list arfcns).length ∧
          (split_list arfcns).length = (split_list scs_types).length ∧
          (split_list scs_types).length = (split_list pcis).length) →
        build_nr_command 2 bands arfcns scs_types pcis = "AT^NRFREQLOCK=0\r\n") := by
  refine ⟨fun h => ⟨?_, ?_⟩, fun h => ?_, fun h => ?_⟩
  · simp only [build_lte_command]
    norm_num
    exact fun hc => absurd hc h
  · simp only [build_nr_command]
    norm_num
    exact fun hc => absurd hc h
  · have hd : bands.length ≠ (split_list arfcns).length ∨
        (split_list arfcns).length ≠ (split_list pcis).length := by tauto
    simp only [build_lte_command]
    norm_num
    exact fun h1 h2 => absurd ⟨h1, h2⟩ h
  · have hd : bands.length ≠ (split_list arfcns).length ∨
        (split_list arfcns).length ≠ (split_list scs_types).length ∨
        (split_list scs_types).length ≠ (split_list pcis).length := by tauto
    simp only [build_nr_command]
    norm_num
    exact fun h1 h2 h3 => absurd ⟨h1, h2, h3⟩ h

/-! ## AT multiplexer transaction (src/at-webserver/src/client.rs) -/

/-- `ATResponse` (models.rs). -/
structure ATResponse where
  success : Bool
  data : Option String
  error : Option String
deriving DecidableEq

/-- `ATResponse::ok` (models.rs). -/
def ATResponse.ok (data : Option String) : ATResponse :=
  { success := true, data := data, error := none }

/-- `ATResponse::error` (models.rs); named `err` here because Lean reserves
`ATResponse.error` for the structure field. -/
def ATResponse.err (e : String) : ATResponse :=
  { success := false, data := none, error := some e }

/-- Split a buffer at the newline bytes: the complete (`'\n'`-terminated)
segments, in order, and the residue after the last `'\n'` — the bytes
`extract_next_line` (client.rs) leaves in the buffer. -/
def splitNL : List Char → List (List Char) × List Char
  | [] => ([], [])
  | c :: r =>
      let p := splitNL r
      if c = '\n' then ([] :: p.1, p.2)
      else
        match p.1 with
        | [] => ([], c :: p.2)
        | l :: ls => ((c :: l) :: ls, p.2)

/-- Draining a buffer through repeated `extract_next_line` (client.rs):
each complete segment is trimmed, empty lines are skipped, and the residue
(no `'\n'` in it) stays buffered. -/
def lineize (buf : List Char) : List String × List Char :=
  let p := splitNL buf
  ((p.1.map (fun l => String.mk (trimChars l))).filter (fun s => s ≠ ""), p.2)

/-- How a transaction of `send_command_and_wait` (client.rs) ended — a ghost
observation recording which return path ran, with the loop state it saw. -/
inductive TxTerm where
  | okT (body : String)
  | errT (body line : String)
  | promptT (body line : String)
  | timeoutT
  | closedT
  | recvErrT (msg : String)
deriving DecidableEq

/-- Result of processing the lines framed out of one received chunk inside
the await loop of `send_command_and_wait` (client.rs lines 270-308):
`urcs` the lines handed to `urc_tx`, `bodyLines` the lines appended to
`response_data` as content (a ghost projection of the string `body`),
`fin` the reply returned from inside the line loop (if any, with its
`TxTerm`), `body` the value of `response_data` afterwards. -/
structure LinesOut where
  urcs : List String
  bodyLines : List String
  fin : Option (ATResponse × TxTerm)
  body : String

/-- The per-line skip condition of the await loop (client.rs lines 274-290):
the line is classified URC and is not a response to the in-flight command
(`is_my_response` stays false). -/
def skipCond (pfx l : String) : Bool :=
  is_urc l && !((pfx != "") && strStarts l pfx)

/-- The `while let Some(line) = extract_next_line(buffer)` loop of the await
phase (client.rs lines 270-308), over the already-framed lines. Order of
the checks is the source's: URC-and-not-my-response first, then `== "OK"`,
then `contains("ERROR")`, then `starts_with(">")`, else append. Lines after
an early `return` are dropped, as the source drops them by returning. -/
def procLines (pfx : String) : List String → String → LinesOut
  | [], body => ⟨[], [], none, body⟩
  | l :: ls, body =>
    if skipCond pfx l then
      let r := procLines pfx ls body
      ⟨l :: r.urcs, r.bodyLines, r.fin, r.body⟩
    else if l = "OK" then
      ⟨[], [], some (ATResponse.ok (some (body ++ "OK")), TxTerm.okT body), body ++ "OK"⟩
    else if strContains l "ERROR" then
      ⟨[], [], some (ATResponse.err (body ++ l), TxTerm.errT body l), body ++ l⟩
    else if strStarts l ">" then
      ⟨[], [], some (ATResponse.ok (some (body ++ l)), TxTerm.promptT body l), body ++ l⟩
    else
      let r := procLines pfx ls (body ++ l ++ "\r\n")
      ⟨r.urcs, l :: r.bodyLines, r.fin, r.body⟩

/-- One outcome of the 1-second `timeout(…, conn.receive(…))` read of the
await loop: `recvOk dt data` is `Ok(Ok(n))` with the bytes read (`n = 0`,
i.e. `data = []`, is EOF), `recvErr` is `Ok(Err(e))`, `recvTimeout` is
`Err(_)` (the window elapsed). `dt` is the wall time the read consumed, in
milliseconds, added to the transaction's elapsed time. -/
inductive RecvEv where
  | recvOk (dt : Nat) (data : List Char)
  | recvErr (dt : Nat) (msg : String)
  | recvTimeout (dt : Nat)

/-- Everything observable from one run of a transaction: the values sent on
the caller's one-shot (`reply_tx.send`), the lines handed to the URC queue
(`urc_tx.send`) during the await loop, the ghost list of body content
lines, the function's own `anyhow::Result`, and the ghost termination. -/
structure TxOut where
  replies : List ATResponse
  urcs : List String
  bodyLines : List String
  result : Except String Unit
  term : Option TxTerm

/-- The await loop of `send_command_and_wait` (client.rs lines 252-316):
overall deadline 10 s, checked at the top of each iteration (elapsed in
milliseconds). `events` is the finite script of read outcomes the transport
produces for this transaction; once it is exhausted the modem is silent, and
every further 1-second read window times out, so the deadline expires and the
`Timeout` reply is the unique outcome — the `[]` case returns it directly. -/
def runLoop (pfx : String) (events : List RecvEv) (elapsed : Nat)
    (buffer : List Char) (body : String) : TxOut :=
  if elapsed > 10000 then
    ⟨[ATResponse.err "Timeout"], [], [], Except.ok (), some TxTerm.timeoutT⟩
  else
    match events with
    | [] => ⟨[ATResponse.err "Timeout"], [], [], Except.ok (), some TxTerm.timeoutT⟩
    | RecvEv.recvOk dt data :: rest =>
        if data.isEmpty then
          ⟨[ATResponse.err "Connection closed"], [], [], Except.error "Closed",
            some TxTerm.closedT⟩
        else
          let st := lineize (buffer ++ data)
          let r := procLines pfx st.1 body
          match r.fin with
          | some (rep, t) => ⟨[rep], r.urcs, r.bodyLines, Except.ok (), some t⟩
          | none =>
              let out := runLoop pfx rest (elapsed + dt) st.2 r.body
              ⟨out.replies, r.urcs ++ out.urcs, r.bodyLines ++ out.bodyLines,
                out.result, out.term⟩
    | RecvEv.recvErr _ msg :: _ =>
        ⟨[ATResponse.err msg], [], [], Except.error msg, some (TxTerm.recvErrT msg)⟩
    | RecvEv.recvTimeout dt :: rest => runLoop pfx rest (elapsed + dt) buffer body

/-- The expected-response prefix derived from the command
(client.rs lines 240-246): for a trimmed command `AT<X>[?|=…]` it is `<X>`,
otherwise the empty string. -/
def expectedPfx (cmd : String) : String :=
  let c := strTrim cmd
  if strStarts c "AT" then
    String.mk ((c.toList.drop 2).takeWhile (fun ch => !(ch = '?' || ch = '=')))
  else ""

/-- Everything observable from one full `send_command_and_wait` call:
`preUrcs` the lines handed to `urc_tx` by the pre-drain, the rest as in
`TxOut`. `term = none` means the command write itself failed. -/
structure SCWOut where
  preUrcs : List String
  replies : List ATResponse
  urcs : List String
  bodyLines : List String
  result : Except String Unit
  term : Option TxTerm

/-- `ATClientActor::send_command_and_wait` (client.rs lines 207-317).
`buffer0` is the actor's buffer on entry; `preChunks` the (non-empty)
chunks the ≤10 ms pre-drain reads deliver before one times out or returns
0; `writeOk` whether the two `conn.send` calls succeed (on failure the `?`
operator returns before any reply is sent and the one-shot is dropped);
`events` the read outcomes of the await loop; `cmd` the submitted command.
The pre-drain frames the drained lines, forwards exactly the URC-classified
ones, then clears the buffer, so the await loop starts on an empty buffer
and an empty `response_data`. -/
def send_command_and_wait (buffer0 : List Char) (preChunks : List (List Char))
    (writeOk : Bool) (events : List RecvEv) (cmd : String) : SCWOut :=
  let drained := buffer0 ++ preChunks.flatten
  let preU := (lineize drained).1.filter is_urc
  let pfx := expectedPfx cmd
  if writeOk then
    let t := runLoop pfx events 0 [] ""
    ⟨preU, t.replies, t.urcs, t.bodyLines, t.result, t.term⟩
  else
    ⟨preU, [], [], [], Except.error "write failed", none⟩

/-! ## Invariants of the line loop -/

/-- The string the await loop's `response_data` accumulates for a list of
content lines: each line followed by `"\r\n"`. -/
def bodyOf : List String → String
  | [] => ""
  | l :: ls => l ++ "\r\n" ++ bodyOf ls

theorem bodyOf_append (a b : List String) :
    bodyOf (a ++ b) = bodyOf a ++ bodyOf b := by
  induction a with
  | nil => simp [bodyOf, String.empty_append]
  | cons l t ih => simp [bodyOf, ih, String.append_assoc]

theorem procLines_body_none (pfx : String) (ls : List String) :
    ∀ body, (procLines pfx ls body).fin = none →
      (procLines pfx ls body).body = body ++ bodyOf (procLines pfx ls body).bodyLines := by
  induction ls with
  | nil => intro body _; simp [procLines, bodyOf, String.append_empty]
  | cons l t ih =>
      intro body h
      simp only [procLines] at h ⊢
      by_cases h1 : skipCond pfx l = true
      · simp only [h1, if_true] at h ⊢
        exact ih body h
      · simp only [eq_false_of_ne_true h1, if_false] at h ⊢
        by_cases h2 : l = "OK"
        · simp [h2] at h
        · simp only [h2, if_false] at h ⊢
          by_cases h3 : strContains l "ERROR" = true
          · simp [h3] at h
          · simp only [eq_false_of_ne_true h3, if_false] at h ⊢
            by_cases h4 : strStarts l ">" = true
            · simp [h4] at h
            · simp only [eq_false_of_ne_true h4, if_false] at h ⊢
              rw [ih _ h]
              simp [bodyOf, String.append_assoc]

theorem procLines_fin_okT (pfx : String) (ls : List String) :
    ∀ body rep b, (procLines pfx ls body).fin = some (rep, TxTerm.okT b) →
      b = body ++ bodyOf (procLines pfx ls body).bodyLines ∧
        rep = ATResponse.ok (some (b ++ "OK")) := by
  induction ls with
  | nil => intro body rep b h; simp [procLines] at h
  | cons l t ih =>
      intro body rep b h
      simp only [procLines] at h ⊢
      by_cases h1 : skipCond pfx l = true
      · simp only [h1, eq_self_iff_true, if_true] at h ⊢
        exact ih body rep b h
      · simp only [eq_false_of_ne_true h1, Bool.false_eq_true, if_false] at h ⊢
        by_cases h2 : l = "OK"
        · simp only [if_pos h2] at h ⊢
          simp only [Option.some.injEq, Prod.mk.injEq] at h
          obtain ⟨hrep, hb⟩ := h
          obtain rfl : body = b := by cases hb; rfl
          exact ⟨by simp [bodyOf, String.append_empty], hrep.symm⟩
        · simp only [if_neg h2] at h ⊢
          by_cases h3 : strContains l "ERROR" = true
          · simp [h3] at h
          · simp only [eq_false_of_ne_true h3, Bool.false_eq_true, if_false] at h ⊢
            by_cases h4 : strStarts l ">" = true
            · simp [h4] at h
            · simp only [eq_false_of_ne_true h4, Bool.false_eq_true, if_false] at h ⊢
              obtain ⟨hb, hrep⟩ := ih (body ++ l ++ "\r\n") rep b h
              refine ⟨?_, hrep⟩
              rw [hb]
              simp [bodyOf, String.append_assoc]

theorem procLines_fin_errT (pfx : String) (ls : List String) :
    ∀ body rep b e, (procLines pfx ls body).fin = some (rep, TxTerm.errT b e) →
      b = body ++ bodyOf (procLines pfx ls body).bodyLines ∧
        rep = ATResponse.err (b ++ e) := by
  induction ls with
  | nil => intro body rep b e h; simp [procLines] at h
  | cons l t ih =>
      intro body rep b e h
      simp only [procLines] at h ⊢
      by_cases h1 : skipCond pfx l = true
      · simp only [h1, eq_self_iff_true, if_true] at h ⊢
        exact ih body rep b e h
      · simp only [eq_false_of_ne_true h1, Bool.false_eq_true, if_false] at h ⊢
        by_cases h2 : l = "OK"
        · simp only [if_pos h2] at h; simp at h
        · simp only [if_neg h2] at h ⊢
          by_cases h3 : strContains l "ERROR" = true
          · simp only [h3, eq_self_iff_true, if_true] at h ⊢
            simp only [Option.some.injEq, Prod.mk.injEq] at h
            obtain ⟨hrep, hbe⟩ := h
            obtain ⟨rfl, rfl⟩ : body = b ∧ l = e := by cases hbe; exact ⟨rfl, rfl⟩
            exact ⟨by simp [bodyOf, String.append_empty], hrep.symm⟩
          · simp only [eq_false_of_ne_true h3, Bool.false_eq_true, if_false] at h ⊢
            by_cases h4 : strStarts l ">" = true
            · simp [h4] at h
            · simp only [eq_false_of_ne_true h4, Bool.false_eq_true, if_false] at h ⊢
              obtain ⟨hb, hrep⟩ := ih (body ++ l ++ "\r\n") rep b e h
              refine ⟨?_, hrep⟩
              rw [hb]
              simp [bodyOf, String.append_assoc]

theorem procLines_fin_shape (pfx : String) (ls : List String) :
    ∀ body rep t, (procLines pfx ls body).fin = some (rep, t) →
      (∃ d, rep = ATResponse.ok d) ∨ (∃ e, rep = ATResponse.err e) := by
  induction ls with
  | nil => intro body rep t h; simp [procLines] at h
  | cons l tl ih =>
      intro body rep t h
      simp only [procLines] at h
      by_cases h1 : skipCond pfx l = true
      · simp only [h1, eq_self_iff_true, if_true] at h
        exact ih body rep t h
      · simp only [eq_false_of_ne_true h1, Bool.false_eq_true, if_false] at h
        by_cases h2 : l = "OK"
        · simp only [if_pos h2, Option.some.injEq, Prod.mk.injEq] at h
          exact Or.inl ⟨_, h.1.symm⟩
        · simp only [if_neg h2] at h
          by_cases h3 : strContains l "ERROR" = true
          · simp only [h3, if_true, Option.some.injEq, Prod.mk.injEq] at h
            exact Or.inr ⟨_, h.1.symm⟩
          · simp only [eq_false_of_ne_true h3, Bool.false_eq_true, if_false] at h
            by_cases h4 : strStarts l ">" = true
            · simp only [h4, if_true, Option.some.injEq, Prod.mk.injEq] at h
              exact Or.inl ⟨_, h.1.symm⟩
            · simp only [eq_false_of_ne_true h4, Bool.false_eq_true, if_false] at h
              exact ih (body ++ l ++ "\r\n") rep t h

theorem procLines_bodyLines_mem (pfx : String) (ls : List String) :
    ∀ body l', l' ∈ (procLines pfx ls body).bodyLines → skipCond pfx l' = false := by
  induction ls with
  | nil => intro body l' h; simp [procLines] at h
  | cons l t ih =>
      intro body l' h
      simp only [procLines] at h
      by_cases h1 : skipCond pfx l = true
      · simp only [h1, eq_self_iff_true, if_true] at h
        exact ih body l' h
      · simp only [eq_false_of_ne_true h1, Bool.false_eq_true, if_false] at h
        by_cases h2 : l = "OK"
        · simp only [if_pos h2] at h; simp at h
        · simp only [if_neg h2] at h
          by_cases h3 : strContains l "ERROR" = true
          · simp [h3] at h
          · simp only [eq_false_of_ne_true h3, Bool.false_eq_true, if_false] at h
            by_cases h4 : strStarts l ">" = true
            · simp [h4] at h
            · simp only [eq_false_of_ne_true h4, Bool.false_eq_true, if_false] at h
              rcases List.mem_cons.mp h with rfl | hm
              · exact eq_false_of_ne_true h1
              · exact ih (body ++ l ++ "\r\n") l' hm

theorem procLines_urcs_mem (pfx : String) (ls : List String) :
    ∀ body l', l' ∈ (procLines pfx ls body).urcs → skipCond pfx l' = true := by
  induction ls with
  | nil => intro body l' h; simp [procLines] at h
  | cons l t ih =>
      intro body l' h
      simp only [procLines] at h
      by_cases h1 : skipCond pfx l = true
      · simp only [h1, eq_self_iff_true, if_true] at h
        rcases List.mem_cons.mp h with rfl | hm
        · exact h1
        · exact ih body l' hm
      · simp only [eq_false_of_ne_true h1, Bool.false_eq_true, if_false] at h
        by_cases h2 : l = "OK"
        · simp only [if_pos h2] at h; simp at h
        · simp only [if_neg h2] at h
          by_cases h3 : strContains l "ERROR" = true
          · simp [h3] at h
          · simp only [eq_false_of_ne_true h3, Bool.false_eq_true, if_false] at h
            by_cases h4 : strStarts l ">" = true
            · simp [h4] at h
            · simp only [eq_false_of_ne_true h4, Bool.false_eq_true, if_false] at h
              exact ih (body ++ l ++ "\r\n") l' h

theorem procLines_mem_urcs_of_skip (pfx : String) (ls : List String) :
    ∀ body l', l' ∈ ls → skipCond pfx l' = true →
      (procLines pfx ls body).fin = none → l' ∈ (procLines pfx ls body).urcs := by
  induction ls with
  | nil => intro body l' h; simp at h
  | cons l t ih =>
      intro body l' hmem hsk hfin
      simp only [procLines] at hfin ⊢
      by_cases h1 : skipCond pfx l = true
      · simp only [h1, eq_self_iff_true, if_true] at hfin ⊢
        rcases List.mem_cons.mp hmem with rfl | hm
        · exact List.mem_cons_self _ _
        · exact List.mem_cons_of_mem _ (ih body l' hm hsk hfin)
      · simp only [eq_false_of_ne_true h1, Bool.false_eq_true, if_false] at hfin ⊢
        by_cases h2 : l = "OK"
        · simp only [if_pos h2] at hfin; simp at hfin
        · simp only [if_neg h2] at hfin ⊢
          by_cases h3 : strContains l "ERROR" = true
          · simp [h3] at hfin
          · simp only [eq_false_of_ne_true h3, Bool.false_eq_true, if_false] at hfin ⊢
            by_cases h4 : strStarts l ">" = true
            · simp [h4] at hfin
            · simp only [eq_false_of_ne_true h4, Bool.false_eq_true, if_false] at hfin ⊢
              rcases List.mem_cons.mp hmem with rfl | hm
              · exact absurd hsk h1
              · exact ih (body ++ l ++ "\r\n") l' hm hsk hfin

/-! ## Invariants of the await loop -/

theorem procLines_forwards_skip (pfx : String) (pre : List String) :
    ∀ body l post, skipCond pfx l = true →
      (procLines pfx pre body).fin = none →
      l ∈ (procLines pfx (pre ++ l :: post) body).urcs := by
  induction pre with
  | nil =>
      intro body l post hsk _
      simp only [List.nil_append, procLines, hsk, eq_self_iff_true, if_true]
      exact List.mem_cons_self _ _
  | cons a t ih =>
      intro body l post hsk hfin
      simp only [procLines, List.cons_append] at hfin ⊢
      by_cases h1 : skipCond pfx a = true
      · simp only [h1, eq_self_iff_true, if_true] at hfin ⊢
        exact List.mem_cons_of_mem _ (ih body l post hsk hfin)
      · simp only [eq_false_of_ne_true h1, Bool.false_eq_true, if_false] at hfin ⊢
        by_cases h2 : a = "OK"
        · simp only [if_pos h2] at hfin; simp at hfin
        · simp only [if_neg h2] at hfin ⊢
          by_cases h3 : strContains a "ERROR" = true
          · simp only [h3, eq_self_iff_true, if_true] at hfin; simp at hfin
          · simp only [eq_false_of_ne_true h3, Bool.false_eq_true, if_false] at hfin ⊢
            by_cases h4 : strStarts a ">" = true
            · simp only [h4, eq_self_iff_true, if_true] at hfin; simp at hfin
            · simp only [eq_false_of_ne_true h4, Bool.false_eq_true, if_false] at hfin ⊢
              exact ih (body ++ a ++ "\r\n") l post hsk hfin

theorem runLoop_replies_len (pfx : String) (events : List RecvEv) :
    ∀ elapsed buffer body,
      ((runLoop pfx events elapsed buffer body).replies).length = 1 := by
  induction events with
  | nil =>
      intro el buf body
      simp only [runLoop]
      split <;> rfl
  | cons ev rest ih =>
      intro el buf body
      cases ev with
      | recvOk dt data =>
          simp only [runLoop]
          split
          · rfl
          · by_cases hd : data.isEmpty = true
            · simp only [hd, eq_self_iff_true, if_true]
              rfl
            · simp only [eq_false_of_ne_true hd, Bool.false_eq_true, if_false]
              rcases hfin : (procLines pfx (lineize (buf ++ data)).1 body).fin with _ | ft
              · simp only [hfin]
                exact ih _ _ _
              · rcases ft with ⟨rep, t⟩
                simp only [hfin]
                rfl
      | recvErr dt msg =>
          simp only [runLoop]
          split <;> rfl
      | recvTimeout dt =>
          simp only [runLoop]
          split
          · rfl
          · exact ih _ _ _

theorem runLoop_okT (pfx : String) (events : List RecvEv) :
    ∀ elapsed buffer body b,
      (runLoop pfx events elapsed buffer body).term = some (TxTerm.okT b) →
      b = body ++ bodyOf (runLoop pfx events elapsed buffer body).bodyLines ∧
        (runLoop pfx events elapsed buffer body).replies =
          [ATResponse.ok (some (b ++ "OK"))] := by
  induction events with
  | nil =>
      intro el buf body b h
      simp only [runLoop] at h
      by_cases hel : el > 10000
      · simp only [if_pos hel] at h; simp at h
      · simp only [if_neg hel] at h; simp at h
  | cons ev rest ih =>
      intro el buf body b h
      cases ev with
      | recvOk dt data =>
          simp only [runLoop] at h ⊢
          by_cases hel : el > 10000
          · simp only [if_pos hel] at h; simp at h
          · simp only [if_neg hel] at h ⊢
            by_cases hd : data.isEmpty = true
            · simp only [hd, eq_self_iff_true, if_true] at h; simp at h
            · simp only [eq_false_of_ne_true hd, Bool.false_eq_true, if_false] at h ⊢
              rcases hfin : (procLines pfx (lineize (buf ++ data)).1 body).fin with _ | ⟨rep, t⟩
              · simp only [hfin] at h ⊢
                obtain ⟨hb, hrep⟩ := ih _ _ _ b h
                refine ⟨?_, hrep⟩
                rw [hb, procLines_body_none pfx _ _ hfin, bodyOf_append,
                  String.append_assoc]
              · simp only [hfin] at h ⊢
                simp only [Option.some.injEq] at h
                subst h
                obtain ⟨hb, hrep⟩ := procLines_fin_okT pfx _ body rep b hfin
                exact ⟨hb, by rw [hrep]⟩
      | recvErr dt msg =>
          simp only [runLoop] at h
          by_cases hel : el > 10000
          · simp only [if_pos hel] at h; simp at h
          · simp only [if_neg hel] at h; simp at h
      | recvTimeout dt =>
          simp only [runLoop] at h ⊢
          by_cases hel : el > 10000
          · simp only [if_pos hel] at h; simp at h
          · simp only [if_neg hel] at h ⊢
            exact ih _ _ _ b h

theorem runLoop_errT (pfx : String) (events : List RecvEv) :
    ∀ elapsed buffer body b e,
      (runLoop pfx events elapsed buffer body).term = some (TxTerm.errT b e) →
      b = body ++ bodyOf (runLoop pfx events elapsed buffer body).bodyLines ∧
        (runLoop pfx events elapsed buffer body).replies =
          [ATResponse.err (b ++ e)] := by
  induction events with
  | nil =>
      intro el buf body b e h
      simp only [runLoop] at h
      by_cases hel : el > 10000
      · simp only [if_pos hel] at h; simp at h
      · simp only [if_neg hel] at h; simp at h
  | cons ev rest ih =>
      intro el buf body b e h
      cases ev with
      | recvOk dt data =>
          simp only [runLoop] at h ⊢
          by_cases hel : el > 10000
          · simp only [if_pos hel] at h; simp at h
          · simp only [if_neg hel] at h ⊢
            by_cases hd : data.isEmpty = true
            · simp only [hd, eq_self_iff_true, if_true] at h; simp at h
            · simp only [eq_false_of_ne_true hd, Bool.false_eq_true, if_false] at h ⊢
              rcases hfin : (procLines pfx (lineize (buf ++ data)).1 body).fin with _ | ⟨rep, t⟩
              · simp only [hfin] at h ⊢
                obtain ⟨hb, hrep⟩ := ih _ _ _ b e h
                refine ⟨?_, hrep⟩
                rw [hb, procLines_body_none pfx _ _ hfin, bodyOf_append,
                  String.append_assoc]
              · simp only [hfin] at h ⊢
                simp only [Option.some.injEq] at h
                subst h
                obtain ⟨hb, hrep⟩ := procLines_fin_errT pfx _ body rep b e hfin
                exact ⟨hb, by rw [hrep]⟩
      | recvErr dt msg =>
          simp only [runLoop] at h
          by_cases hel : el > 10000
          · simp only [if_pos hel] at h; simp at h
          · simp only [if_neg hel] at h; simp at h
      | recvTimeout dt =>
          simp only [runLoop] at h ⊢
          by_cases hel : el > 10000
          · simp only [if_pos hel] at h; simp at h
          · simp only [if_neg hel] at h ⊢
            exact ih _ _ _ b e h

theorem runLoop_bodyLines_mem (pfx : String) (events : List RecvEv) :
    ∀ elapsed buffer body l',
      l' ∈ (runLoop pfx events elapsed buffer body).bodyLines →
      skipCond pfx l' = false := by
  induction events with
  | nil =>
      intro el buf body l' h
      simp only [runLoop] at h
      by_cases hel : el > 10000
      · simp only [if_pos hel] at h; simp at h
      · simp only [if_neg hel] at h; simp at h
  | cons ev rest ih =>
      intro el buf body l' h
      cases ev with
      | recvOk dt data =>
          simp only [runLoop] at h
          by_cases hel : el > 10000
          · simp only [if_pos hel] at h; simp at h
          · simp only [if_neg hel] at h
            by_cases hd : data.isEmpty = true
            · simp only [hd, eq_self_iff_true, if_true] at h; simp at h
            · simp only [eq_false_of_ne_true hd, Bool.false_eq_true, if_false] at h
              rcases hfin : (procLines pfx (lineize (buf ++ data)).1 body).fin with _ | ⟨rep, t⟩
              · simp only [hfin] at h
                rcases List.mem_append.mp h with hm | hm
                · exact procLines_bodyLines_mem pfx _ body l' hm
                · exact ih _ _ _ l' hm
              · simp only [hfin] at h
                exact procLines_bodyLines_mem pfx _ body l' h
      | recvErr dt msg =>
          simp only [runLoop] at h
          by_cases hel : el > 10000
          · simp only [if_pos hel] at h; simp at h
          · simp only [if_neg hel] at h; simp at h
      | recvTimeout dt =>
          simp only [runLoop] at h
          by_cases hel : el > 10000
          · simp only [if_pos hel] at h; simp at h
          · simp only [if_neg hel] at h
            exact ih _ _ _ l' h

theorem runLoop_urcs_mem (pfx : String) (events : List RecvEv) :
    ∀ elapsed buffer body l',
      l' ∈ (runLoop pfx events elapsed buffer body).urcs →
      skipCond pfx l' = true := by
  induction events with
  | nil =>
      intro el buf body l' h
      simp only [runLoop] at h
      by_cases hel : el > 10000
      · simp only [if_pos hel] at h; simp at h
      · simp only [if_neg hel] at h; simp at h
  | cons ev rest ih =>
      intro el buf body l' h
      cases ev with
      | recvOk dt data =>
          simp only [runLoop] at h
          by_cases hel : el > 10000
          · simp only [if_pos hel] at h; simp at h
          · simp only [if_neg hel] at h
            by_cases hd : data.isEmpty = true
            · simp only [hd, eq_self_iff_true, if_true] at h; simp at h
            · simp only [eq_false_of_ne_true hd, Bool.false_eq_true, if_false] at h
              rcases hfin : (procLines pfx (lineize (buf ++ data)).1 body).fin with _ | ⟨rep, t⟩
              · simp only [hfin] at h
                rcases List.mem_append.mp h with hm | hm
                · exact procLines_urcs_mem pfx _ body l' hm
                · exact ih _ _ _ l' hm
              · simp only [hfin] at h
                exact procLines_urcs_mem pfx _ body l' h
      | recvErr dt msg =>
          simp only [runLoop] at h
          by_cases hel : el > 10000
          · simp only [if_pos hel] at h; simp at h
          · simp only [if_neg hel] at h; simp at h
      | recvTimeout dt =>
          simp only [runLoop] at h
          by_cases hel : el > 10000
          · simp only [if_pos hel] at h; simp at h
          · simp only [if_neg hel] at h
            exact ih _ _ _ l' h

theorem runLoop_reply_shape (pfx : String) (events : List RecvEv) :
    ∀ elapsed buffer body r,
      r ∈ (runLoop pfx events elapsed buffer body).replies →
      (∃ d, r = ATResponse.ok d) ∨ (∃ e, r = ATResponse.err e) := by
  induction events with
  | nil =>
      intro el buf body r h
      simp only [runLoop] at h
      by_cases hel : el > 10000
      · simp only [if_pos hel] at h
        simp at h
        exact Or.inr ⟨_, h⟩
      · simp only [if_neg hel] at h
        simp at h
        exact Or.inr ⟨_, h⟩
  | cons ev rest ih =>
      intro el buf body r h
      cases ev with
      | recvOk dt data =>
          simp only [runLoop] at h
          by_cases hel : el > 10000
          · simp only [if_pos hel] at h
            simp at h
            exact Or.inr ⟨_, h⟩
          · simp only [if_neg hel] at h
            by_cases hd : data.isEmpty = true
            · simp only [hd, eq_self_iff_true, if_true] at h
              simp at h
              exact Or.inr ⟨_, h⟩
            · simp only [eq_false_of_ne_true hd, Bool.false_eq_true, if_false] at h
              rcases hfin : (procLines pfx (lineize (buf ++ data)).1 body).fin with _ | ⟨rep, t⟩
              · simp only [hfin] at h
                exact ih _ _ _ r h
              · simp only [hfin] at h
                simp at h
                subst h
                exact procLines_fin_shape pfx _ body _ t hfin
      | recvErr dt msg =>
          simp only [runLoop] at h
          by_cases hel : el > 10000
          · simp only [if_pos hel] at h
            simp at h
            exact Or.inr ⟨_, h⟩
          · simp only [if_neg hel] at h
            simp at h
            exact Or.inr ⟨_, h⟩
      | recvTimeout dt =>
          simp only [runLoop] at h
          by_cases hel : el > 10000
          · simp only [if_pos hel] at h
            simp at h
            exact Or.inr ⟨_, h⟩
          · simp only [if_neg hel] at h
            exact ih _ _ _ r h

/-! ## Claims C1, C2, C3, C4, C10 -/

/-- **C1, counterexample.** A successful `submit` whose body contains a line
the URC classifier accepts: querying `AT^HCSQ?` makes the expected prefix
`^HCSQ`, so the reply line `^HCSQ: "LTE",30` — classified URC by
`NetworkSignalHandler::can_handle` — is treated as response content, kept in
the returned body, and never forwarded to the URC bus. -/
theorem claim_C1_counterexample :
    (send_command_and_wait [] [] true
        [RecvEv.recvOk 0 ("^HCSQ: \"LTE\",30\nOK\n".toList)] "AT^HCSQ?").replies =
      [ATResponse.ok (some "^HCSQ: \"LTE\",30\r\nOK")] ∧
    is_urc "^HCSQ: \"LTE\",30" = true ∧
    (send_command_and_wait [] [] true
        [RecvEv.recvOk 0 ("^HCSQ: \"LTE\",30\nOK\n".toList)] "AT^HCSQ?").urcs = [] :=
  ⟨rfl, rfl, rfl⟩

/-- **C1, amended.** For every transaction (command written successfully):
every line kept in the body that the URC classifier accepts starts with the
nonempty expected prefix of the command; every line forwarded to the URC bus
satisfies the skip condition (URC and not prefix-matching); and every framed
line satisfying the skip condition is forwarded to the URC bus whenever the
lines framed before it have not already ended the transaction — a
skip-satisfying line never terminates the loop itself, so this covers a URC
framed in the same read as the terminator (`+CMTI: "SM",3` followed by `OK`
in one chunk, spec §8 scenario 1): with nothing terminating before it, the
URC line is forwarded and the `OK` that follows still ends the transaction. -/
theorem claim_C1_spec (buffer0 : List Char) (pre : List (List Char))
    (events : List RecvEv) (cmd : String) :
    (∀ l, l ∈ (send_command_and_wait buffer0 pre true events cmd).bodyLines →
        is_urc l = true →
        expectedPfx cmd ≠ "" ∧ strStarts l (expectedPfx cmd) = true)
    ∧ (∀ l, l ∈ (send_command_and_wait buffer0 pre true events cmd).urcs →
        skipCond (expectedPfx cmd) l = true)
    ∧ (∀ fore l aft body, skipCond (expectedPfx cmd) l = true →
        (procLines (expectedPfx cmd) fore body).fin = none →
        l ∈ (procLines (expectedPfx cmd) (fore ++ l :: aft) body).urcs) := by
  refine ⟨?_, ?_, ?_⟩
  · intro l hmem hurc
    have hskip : skipCond (expectedPfx cmd) l = false := by
      refine runLoop_bodyLines_mem (expectedPfx cmd) events 0 [] "" l ?_
      simpa [send_command_and_wait] using hmem
    simp only [skipCond, hurc, Bool.true_and, Bool.not_eq_false',
      Bool.and_eq_true, bne_iff_ne, ne_eq] at hskip
    exact ⟨hskip.1, hskip.2⟩
  · intro l hmem
    refine runLoop_urcs_mem (expectedPfx cmd) events 0 [] "" l ?_
    simpa [send_command_and_wait] using hmem
  · intro fore l aft body hsk hfin
    exact procLines_forwards_skip (expectedPfx cmd) fore body l aft hsk hfin

/-- **C2, counterexample.** When the transport write of the command fails,
the `?` operator returns from `send_command_and_wait` before any reply is
sent: zero responses are sent on the one-shot (the channel is dropped), not
exactly one. -/
theorem claim_C2_counterexample :
    (send_command_and_wait [] [] false [] "AT+CGSN").replies = [] := rfl

/-- **C2, amended.** Once the command bytes are written successfully, every
path of the await loop — response line, ERROR line, prompt, read error,
EOF, deadline expiry — sends exactly one Response on the one-shot; on
transport write failure zero Responses are sent and the one-shot is
dropped. -/
theorem claim_C2_spec (buffer0 : List Char) (pre : List (List Char))
    (events : List RecvEv) (cmd : String) :
    ((send_command_and_wait buffer0 pre true events cmd).replies).length = 1
    ∧ (send_command_and_wait buffer0 pre false events cmd).replies = [] := by
  constructor
  · simpa [send_command_and_wait] using
      runLoop_replies_len (expectedPfx cmd) events 0 [] ""
  · simp [send_command_and_wait]

/-- **C3.** For every line processed as response content (not skipped as a
URC): the exact line `OK` ends the transaction with success; otherwise a
line containing `ERROR` ends it with failure carrying that line (appended
to the accumulated body); otherwise a line starting with `>` ends it with
success; any other line is appended to the body followed by `"\r\n"` and
the loop continues with the remaining lines. -/
theorem claim_C3_spec (pfx l : String) (ls : List String) (body : String)
    (hskip : skipCond pfx l = false) :
    (l = "OK" → procLines pfx (l :: ls) body =
      ⟨[], [], some (ATResponse.ok (some (body ++ "OK")), TxTerm.okT body),
        body ++ "OK"⟩)
    ∧ (l ≠ "OK" → strContains l "ERROR" = true → procLines pfx (l :: ls) body =
      ⟨[], [], some (ATResponse.err (body ++ l), TxTerm.errT body l), body ++ l⟩)
    ∧ (l ≠ "OK" → strContains l "ERROR" = false → strStarts l ">" = true →
      procLines pfx (l :: ls) body =
      ⟨[], [], some (ATResponse.ok (some (body ++ l)), TxTerm.promptT body l),
        body ++ l⟩)
    ∧ (l ≠ "OK" → strContains l "ERROR" = false → strStarts l ">" = false →
      procLines pfx (l :: ls) body =
        ⟨(procLines pfx ls (body ++ l ++ "\r\n")).urcs,
          l :: (procLines pfx ls (body ++ l ++ "\r\n")).bodyLines,
          (procLines pfx ls (body ++ l ++ "\r\n")).fin,
          (procLines pfx ls (body ++ l ++ "\r\n")).body⟩) := by
  refine ⟨fun h2 => ?_, fun h2 h3 => ?_, fun h2 h3 h4 => ?_, fun h2 h3 h4 => ?_⟩
  · simp only [procLines, hskip, Bool.false_eq_true, if_false, if_pos h2]
  · simp only [procLines, hskip, Bool.false_eq_true, if_false, if_neg h2,
      h3, eq_self_iff_true, if_true]
  · simp only [procLines, hskip, Bool.false_eq_true, if_false, if_neg h2,
      h3, if_true, h4, eq_self_iff_true]
  · simp only [procLines, hskip, Bool.false_eq_true, if_false, if_neg h2,
      h3, h4, if_true]

/-- **C3, witness.** The first branch of `claim_C3_spec` at a concrete
input: the line `OK` with empty prefix and empty accumulated body. -/
theorem claim_C3_witness :
    procLines "" ["OK"] "" =
      ⟨[], [], some (ATResponse.ok (some "OK"), TxTerm.okT ""), "OK"⟩ :=
  (claim_C3_spec "" "OK" [] "" (by decide)).1 rfl

/-- **C4, counterexample.** A transaction ended by the line `OK` returns a
body that includes the terminator: submitting `AT` against the stream
`OK\r\n` returns `data = some "OK"` with no content lines — the body does
not exclude the final `OK`, it consists of it. -/
theorem claim_C4_counterexample :
    (send_command_and_wait [] [] true [RecvEv.recvOk 0 ("OK\n".toList)] "AT").replies =
      [ATResponse.ok (some "OK")] ∧
    (send_command_and_wait [] [] true [RecvEv.recvOk 0 ("OK\n".toList)] "AT").bodyLines =
      [] :=
  ⟨rfl, rfl⟩

/-- **C4, amended.** For every transaction terminated by the line `OK`, the
returned success data equals the accumulated content lines followed by the
terminator `"OK"` — the terminator is included (without a trailing CRLF),
not excluded. -/
theorem claim_C4_spec (buffer0 : List Char) (pre : List (List Char))
    (events : List RecvEv) (cmd : String) (b : String)
    (h : (send_command_and_wait buffer0 pre true events cmd).term =
      some (TxTerm.okT b)) :
    (send_command_and_wait buffer0 pre true events cmd).replies =
      [ATResponse.ok (some (b ++ "OK"))] ∧
    b = bodyOf (send_command_and_wait buffer0 pre true events cmd).bodyLines := by
  have h' : (runLoop (expectedPfx cmd) events 0 [] "").term = some (TxTerm.okT b) := by
    simpa [send_command_and_wait] using h
  obtain ⟨hb, hrep⟩ := runLoop_okT (expectedPfx cmd) events 0 [] "" b h'
  constructor
  · simpa [send_command_and_wait] using hrep
  · rw [hb, String.empty_append]
    simp [send_command_and_wait]

/-- **C4, witness.** `claim_C4_spec` at a concrete transaction:
`AT+CSQ` answered by `+CSQ: 20,99` then `OK`. -/
theorem claim_C4_witness :
    (send_command_and_wait [] [] true
        [RecvEv.recvOk 0 ("+CSQ: 20,99\nOK\n".toList)] "AT+CSQ").replies =
      [ATResponse.ok (some ("+CSQ: 20,99\r\n" ++ "OK"))] ∧
    "+CSQ: 20,99\r\n" = bodyOf (send_command_and_wait [] [] true
        [RecvEv.recvOk 0 ("+CSQ: 20,99\nOK\n".toList)] "AT+CSQ").bodyLines :=
  claim_C4_spec [] [] [RecvEv.recvOk 0 ("+CSQ: 20,99\nOK\n".toList)] "AT+CSQ"
    "+CSQ: 20,99\r\n" rfl

/-- **C10.** Every `ATResponse` built by a transaction satisfies the shape
invariant of the `ATResponse::ok` / `ATResponse::error` constructors
(`success = true → error = none`, `success = false → data = none`), and a
transaction ended by a modem `ERROR` line sends exactly one failure whose
error field is the accumulated body followed by that line, with no data. -/
theorem claim_C10_spec (buffer0 : List Char) (pre : List (List Char))
    (wk : Bool) (events : List RecvEv) (cmd : String) :
    (∀ r, r ∈ (send_command_and_wait buffer0 pre wk events cmd).replies →
        (r.success = true → r.error = none) ∧ (r.success = false → r.data = none))
    ∧ (∀ b e, (send_command_and_wait buffer0 pre wk events cmd).term =
        some (TxTerm.errT b e) →
        (send_command_and_wait buffer0 pre wk events cmd).replies =
          [{ success := false, data := none, error := some (b ++ e) }] ∧
        b = bodyOf (send_command_and_wait buffer0 pre wk events cmd).bodyLines) := by
  cases wk with
  | false =>
      refine ⟨?_, ?_⟩
      · intro r hmem
        simp [send_command_and_wait] at hmem
      · intro b e h
        simp [send_command_and_wait] at h
  | true =>
      refine ⟨?_, ?_⟩
      · intro r hmem
        have hm : r ∈ (runLoop (expectedPfx cmd) events 0 [] "").replies := by
          simpa [send_command_and_wait] using hmem
        rcases runLoop_reply_shape (expectedPfx cmd) events 0 [] "" r hm with ⟨d, rfl⟩ | ⟨e, rfl⟩
        · exact ⟨fun _ => rfl, fun hf => by simp [ATResponse.ok] at hf⟩
        · exact ⟨fun ht => by simp [ATResponse.err] at ht, fun _ => rfl⟩
      · intro b e h
        have h' : (runLoop (expectedPfx cmd) events 0 [] "").term =
            some (TxTerm.errT b e) := by
          simpa [send_command_and_wait] using h
        obtain ⟨hb, hrep⟩ := runLoop_errT (expectedPfx cmd) events 0 [] "" b e h'
        constructor
        · simpa [send_command_and_wait, ATResponse.err] using hrep
        · rw [hb, String.empty_append]
          simp [send_command_and_wait]

/-! ## PDU codec (src/at-webserver/src/pdu.rs) -/

/-- `hex_nibble` (pdu.rs). -/
def hex_nibble (c : Char) : Option Nat :=
  if '0' ≤ c ∧ c ≤ '9' then some (c.toNat - '0'.toNat)
  else if 'a' ≤ c ∧ c ≤ 'f' then some (10 + (c.toNat - 'a'.toNat))
  else if 'A' ≤ c ∧ c ≤ 'F' then some (10 + (c.toNat - 'A'.toNat))
  else none

/-- `u8::is_ascii_whitespace`, the skip class of `hex_to_bytes` (pdu.rs). -/
def is_ascii_whitespace (c : Char) : Bool :=
  c = ' ' || c = '\t' || c = '\n' || c = '\x0C' || c = '\r'

/-- The scanning loop of `hex_to_bytes` (pdu.rs): skip ASCII whitespace,
fail with "odd length hex string" when a single trailing character
remains, fail with "invalid hex" when either nibble is not hex, else
emit `(hi << 4) | lo` and continue. -/
def hexToBytesAux : List Char → Except String (List Nat)
  | [] => Except.ok []
  | [c] =>
      if is_ascii_whitespace c then Except.ok []
      else Except.error "odd length hex string"
  | c :: d :: rest =>
      if is_ascii_whitespace c then hexToBytesAux (d :: rest)
      else
        match hex_nibble c with
        | none => Except.error "invalid hex"
        | some hi =>
            match hex_nibble d with
            | none => Except.error "invalid hex"
            | some lo =>
                match hexToBytesAux rest with
                | Except.ok out => Except.ok ((hi * 16 + lo) :: out)
                | Except.error e => Except.error e

/-- `hex_to_bytes` (pdu.rs). -/
def hex_to_bytes (s : String) : Except String (List Nat) :=
  hexToBytesAux s.toList

/-- `gsm_alphabet` (pdu.rs): the 128-entry GSM 7-bit default alphabet. -/
def gsm_alphabet : List Char :=
  "@£$¥èéùìòÇ\nØø\rÅåΔ_ΦΓΛΩΠΨΣΘΞ\x1BÆæßÉ !\"#¤%&'()*+,-./0123456789:;<=>?¡ABCDEFGHIJKLMNOPQRSTUVWXYZÄÖÑÜ§¿abcdefghijklmnopqrstuvwxyzäöñüà".toList

/-- The inner `while shift >= 7` loop of `decode_7bit` (pdu.rs): extract
7-bit septets from `tmp`. Returns (extracted septets in order, remaining
`tmp`, remaining `shift`). `tmp & 0x7F` is `tmp % 128`, `tmp >>= 7` is
`tmp / 128`. -/
def pushSeptets : Nat → Nat → List Nat → List Nat × Nat × Nat
  | tmp, shift + 7, acc => pushSeptets (tmp / 128) shift (acc ++ [tmp % 128])
  | tmp, shift, acc => (acc, tmp, shift)

/-- The byte loop of `decode_7bit` (pdu.rs): `tmp |= (b as u16) << shift;
shift += 8` then septet extraction. `tmp` stays below `2^16` throughout
(`tmp < 2^shift` and `shift ≤ 6` at each loop head), so plain `Nat`
arithmetic coincides with the Rust `u16`. -/
def sevenLoop : List Nat → List Nat → Nat → Nat → List Nat × Nat × Nat
  | [], acc, tmp, shift => (acc, tmp, shift)
  | b :: bs, acc, tmp, shift =>
      let p := pushSeptets (Nat.lor tmp (b * 2 ^ shift)) (shift + 8) acc
      sevenLoop bs p.1 p.2.1 p.2.2

/-- `decode_7bit` (pdu.rs). -/
def decode_7bit (encoded_bytes : List Nat) (length : Nat) : String :=
  let r := sevenLoop encoded_bytes [] 0 0
  let result :=
    if decide (0 < r.2.2) && decide (r.1.length < length) then r.1 ++ [r.2.1 % 128]
    else r.1
  String.mk ((result.take length).map (fun v => gsm_alphabet.getD v '?'))

/-- The pairing loop of `decode_ucs2` (pdu.rs): big-endian 16-bit units
while two bytes remain; a trailing odd byte is dropped. -/
def pairBE : List Nat → List Nat
  | a :: b :: rest => (a * 256 + b) :: pairBE rest
  | _ => []

/-- `char::decode_utf16` with `Err → '?'` as in `decode_ucs2` (pdu.rs): a
high surrogate followed by a low surrogate combines; any unpaired
surrogate unit becomes `'?'` consuming one unit. -/
def utf16Decode : List Nat → List Char
  | [] => []
  | [u] =>
      if (0xD800 ≤ u ∧ u ≤ 0xDBFF) ∨ (0xDC00 ≤ u ∧ u ≤ 0xDFFF) then ['?']
      else [Char.ofNat u]
  | u :: l :: rest =>
      if 0xD800 ≤ u ∧ u ≤ 0xDBFF then
        if 0xDC00 ≤ l ∧ l ≤ 0xDFFF then
          Char.ofNat (0x10000 + (u - 0xD800) * 0x400 + (l - 0xDC00)) ::
            utf16Decode rest
        else '?' :: utf16Decode (l :: rest)
      else if 0xDC00 ≤ u ∧ u ≤ 0xDFFF then '?' :: utf16Decode (l :: rest)
      else Char.ofNat u :: utf16Decode (l :: rest)

/-- `decode_ucs2` (pdu.rs). -/
def decode_ucs2 (encoded_bytes : List Nat) : String :=
  String.mk (utf16Decode (pairBE encoded_bytes))

/-- `bcd_swap` (pdu.rs): `((byte & 0x0F) * 10) + (byte >> 4)` — at most
165 for a byte, no `u8` overflow. -/
def bcd_swap (b : Nat) : Nat :=
  (b % 16) * 10 + b / 16

/-- A UTC+0 date-time, the observable content of the
`chrono::DateTime<FixedOffset>` values of pdu.rs (the offset is always 0
there: `FixedOffset::east_opt(0)`). -/
structure DateTimeU where
  year : Int
  month : Nat
  day : Nat
  hour : Nat
  minute : Nat
  second : Nat
deriving DecidableEq

/-- Gregorian leap year, as `chrono::NaiveDate` uses. -/
def isLeap (y : Int) : Bool :=
  (decide (y % 4 = 0) && !(decide (y % 100 = 0))) || decide (y % 400 = 0)

/-- Days in a month, as `chrono::NaiveDate::from_ymd_opt` validates. -/
def daysInMonth (y : Int) (m : Nat) : Nat :=
  if m = 1 ∨ m = 3 ∨ m = 5 ∨ m = 7 ∨ m = 8 ∨ m = 10 ∨ m = 12 then 31
  else if m = 4 ∨ m = 6 ∨ m = 9 ∨ m = 11 then 30
  else if m = 2 then if isLeap y then 29 else 28
  else 0

/-- `chrono::NaiveDate::from_ymd_opt` succeeds. -/
def validYmd (y : Int) (m d : Nat) : Bool :=
  decide (1 ≤ m) && decide (m ≤ 12) && decide (1 ≤ d) &&
    decide (d ≤ daysInMonth y m)

/-- `chrono::NaiveTime::from_hms_opt` succeeds. -/
def validHms (h mi s : Nat) : Bool :=
  decide (h < 24) && decide (mi < 60) && decide (s < 60)

/-- Whether the seven swapped-BCD timestamp fields of `decode_timestamp`
(pdu.rs) parse to a valid date and time (the `match (date, time)` test). -/
def tsParses (ts : List Nat) : Bool :=
  validYmd (2000 + (bcd_swap (ts.getD 0 0) : Int)) (bcd_swap (ts.getD 1 0))
      (bcd_swap (ts.getD 2 0)) &&
    validHms (bcd_swap (ts.getD 3 0)) (bcd_swap (ts.getD 4 0))
      (bcd_swap (ts.getD 5 0))

/-- `decode_timestamp` (pdu.rs): fewer than 7 bytes, or an invalid date or
time, falls back to the current time (`now`, passed in explicitly here —
the source calls `chrono::Utc::now()`). The `from_local_datetime` step is
always `single` for offset 0, so the valid branch never falls back. -/
def decode_timestamp (now : DateTimeU) (timestamp_bytes : List Nat) : DateTimeU :=
  if timestamp_bytes.length < 7 then now
  else if tsParses timestamp_bytes then
    { year := 2000 + (bcd_swap (timestamp_bytes.getD 0 0) : Int),
      month := bcd_swap (timestamp_bytes.getD 1 0),
      day := bcd_swap (timestamp_bytes.getD 2 0),
      hour := bcd_swap (timestamp_bytes.getD 3 0),
      minute := bcd_swap (timestamp_bytes.getD 4 0),
      second := bcd_swap (timestamp_bytes.getD 5 0) }
  else now

/-- The digit loop of `decode_number` (pdu.rs): low nibble first, high
nibble only while the output is still shorter than `number_length`; nibbles
above 9 are dropped (present for the `0xF` fill). -/
def decNumAux : List Nat → Nat → List Char → List Char
  | [], _, acc => acc
  | byte :: rest, number_length, acc =>
      let d1 := byte % 16
      let d2 := byte / 16
      let acc1 := if d1 ≤ 9 then acc ++ [Char.ofNat ('0'.toNat + d1)] else acc
      let acc2 :=
        if acc1.length < number_length ∧ d2 ≤ 9 then
          acc1 ++ [Char.ofNat ('0'.toNat + d2)]
        else acc1
      decNumAux rest number_length acc2

/-- `decode_number` (pdu.rs). -/
def decode_number (number_bytes : List Nat) (number_length : Nat) : String :=
  String.mk (decNumAux number_bytes number_length [])

/-- `PartialInfo` (pdu.rs); `parts_count` and `part_number` are `u8`,
`reference` is `u16`. -/
structure SmsPartInfo where
  reference : Nat
  parts_count : Nat
  part_number : Nat
deriving DecidableEq

/-- `SmsData` (pdu.rs); the field the source calls `partial_info` is
`part_info` here. -/
structure SmsData where
  sender : String
  content : String
  date : DateTimeU
  part_info : Option SmsPartInfo
deriving DecidableEq

/-- `read_incoming_sms` (pdu.rs). The running `pos` cursor of the source is
written as the explicit positions `pos1` … `pos8`; every bounds check is
the source's (`pos >= len`, `pos + k > len`), written as `len ≤ pos` /
`len < pos + k`. `(dcs & 0x0F) == 0x08` is `dcs % 16 = 8`;
`(pdu_type & 0x40) != 0` is `Nat.testBit pdu_type 6`. The `checked_add` of
the source cannot overflow a `usize` (`smsc_length ≤ 255`), so it is plain
addition here. -/
def read_incoming_sms (now : DateTimeU) (pdu_hex : String) :
    Except String SmsData :=
  match hex_to_bytes pdu_hex with
  | Except.error e => Except.error e
  | Except.ok pdu_bytes =>
    if pdu_bytes.isEmpty then Except.error "empty pdu"
    else
      let smsc_length := pdu_bytes.getD 0 0
      let pos1 := 1 + smsc_length
      if pdu_bytes.length ≤ pos1 then Except.error "invalid pdu"
      else
        let pdu_type := pdu_bytes.getD pos1 0
        let pos2 := pos1 + 1
        if pdu_bytes.length < pos2 + 2 then Except.error "invalid sender header"
        else
          let sender_length := pdu_bytes.getD pos2 0
          let sender_type := pdu_bytes.getD (pos2 + 1) 0
          let pos3 := pos2 + 2
          let sender_bytes_len := (sender_length + 1) / 2
          if pdu_bytes.length < pos3 + sender_bytes_len then
            Except.error "invalid sender length"
          else
            let sender_bytes := (pdu_bytes.drop pos3).take sender_bytes_len
            let sender0 := decode_number sender_bytes sender_length
            let sender :=
              if sender_type = 0x91 && !(strStarts sender0 "+") then
                "+" ++ sender0
              else sender0
            let pos4 := pos3 + sender_bytes_len
            if pdu_bytes.length < pos4 + 1 then Except.error "invalid pid"
            else
              let pos5 := pos4 + 1
              if pdu_bytes.length < pos5 + 1 then Except.error "invalid dcs"
              else
                let dcs := pdu_bytes.getD pos5 0
                let is_ucs2 := dcs % 16 = 8
                let pos6 := pos5 + 1
                if pdu_bytes.length < pos6 + 7 then Except.error "invalid timestamp"
                else
                  let timestamp :=
                    decode_timestamp now ((pdu_bytes.drop pos6).take 7)
                  let pos7 := pos6 + 7
                  if pdu_bytes.length < pos7 + 1 then Except.error "invalid udl"
                  else
                    let data_length := pdu_bytes.getD pos7 0
                    let pos8 := pos7 + 1
                    if pdu_bytes.length < pos8 then Except.error "invalid data start"
                    else
                      let data_bytes := pdu_bytes.drop pos8
                      let udh_length :=
                        if Nat.testBit pdu_type 6 && !data_bytes.isEmpty then
                          data_bytes.getD 0 0 + 1
                        else 0
                      let part_info : Option SmsPartInfo :=
                        if Nat.testBit pdu_type 6 && !data_bytes.isEmpty &&
                            decide (udh_length ≤ data_bytes.length) &&
                            decide (6 ≤ data_bytes.length) then
                          -- `iei` (`data_bytes[1]`) inlined at both uses
                          if data_bytes.getD 1 0 = 0 ∧ 6 ≤ data_bytes.length then
                            some { reference := data_bytes.getD 3 0,
                                   parts_count := data_bytes.getD 4 0,
                                   part_number := data_bytes.getD 5 0 }
                          else if data_bytes.getD 1 0 = 8 ∧ 7 ≤ data_bytes.length then
                            some { reference := (data_bytes.getD 3 0) * 256 +
                                     data_bytes.getD 4 0,
                                   parts_count := data_bytes.getD 5 0,
                                   part_number := data_bytes.getD 6 0 }
                          else none
                        else none
                      let content_bytes :=
                        if udh_length ≤ data_bytes.length then
                          data_bytes.drop udh_length
                        else []
                      let content :=
                        if is_ucs2 then decode_ucs2 content_bytes
                        else decode_7bit content_bytes data_length
                      Except.ok { sender := sender, content := content,
                                  date := timestamp, part_info := part_info }

/-! ## Spec-side PDU layout accessors.
These re-derive each field's position directly from the layout the spec
describes (SMSC length byte, PDU type, sender length/type/digits, PID, DCS,
7-byte timestamp, UDL, user data), written as closed index arithmetic over
the byte list — independently of the cursor arithmetic inside
`read_incoming_sms` — and are related to it by `read_ok_spec` /
`read_err_spec` below. -/

def specQ (b : List Nat) : Nat := 1 + b.getD 0 0
def specSbl (b : List Nat) : Nat := (b.getD (specQ b + 1) 0 + 1) / 2
def specPduType (b : List Nat) : Nat := b.getD (specQ b) 0
def specSenderLen (b : List Nat) : Nat := b.getD (specQ b + 1) 0
def specSenderType (b : List Nat) : Nat := b.getD (specQ b + 2) 0
def specSenderBytes (b : List Nat) : List Nat := (b.drop (specQ b + 3)).take (specSbl b)
def specSender (b : List Nat) : String :=
  let s0 := decode_number (specSenderBytes b) (specSenderLen b)
  if specSenderType b = 0x91 && !(strStarts s0 "+") then "+" ++ s0 else s0
def specDcs (b : List Nat) : Nat := b.getD (specQ b + 4 + specSbl b) 0
def specTsBytes (b : List Nat) : List Nat := (b.drop (specQ b + 5 + specSbl b)).take 7
def specUdl (b : List Nat) : Nat := b.getD (specQ b + 12 + specSbl b) 0
def specDataBytes (b : List Nat) : List Nat := b.drop (specQ b + 13 + specSbl b)
def specUdhLen (b : List Nat) : Nat :=
  if Nat.testBit (specPduType b) 6 && !(specDataBytes b).isEmpty then
    (specDataBytes b).getD 0 0 + 1
  else 0
def specPartInfo (b : List Nat) : Option SmsPartInfo :=
  if Nat.testBit (specPduType b) 6 && !(specDataBytes b).isEmpty &&
      decide (specUdhLen b ≤ (specDataBytes b).length) &&
      decide (6 ≤ (specDataBytes b).length) then
    if (specDataBytes b).getD 1 0 = 0 ∧ 6 ≤ (specDataBytes b).length then
      some { reference := (specDataBytes b).getD 3 0,
             parts_count := (specDataBytes b).getD 4 0,
             part_number := (specDataBytes b).getD 5 0 }
    else if (specDataBytes b).getD 1 0 = 8 ∧ 7 ≤ (specDataBytes b).length then
      some { reference := ((specDataBytes b).getD 3 0) * 256 + (specDataBytes b).getD 4 0,
             parts_count := (specDataBytes b).getD 5 0,
             part_number := (specDataBytes b).getD 6 0 }
    else none
  else none
def specContentBytes (b : List Nat) : List Nat :=
  if specUdhLen b ≤ (specDataBytes b).length then
    (specDataBytes b).drop (specUdhLen b)
  else []
def pduStructOk (b : List Nat) : Bool :=
  decide (specQ b + 13 + specSbl b ≤ b.length)

theorem read_ok_spec (now : DateTimeU) (p : String) (b : List Nat)
    (hb : hex_to_bytes p = Except.ok b) (hok : pduStructOk b = true) :
    read_incoming_sms now p = Except.ok
      { sender := specSender b,
        content := if specDcs b % 16 = 8 then decode_ucs2 (specContentBytes b)
                   else decode_7bit (specContentBytes b) (specUdl b),
        date := decode_timestamp now (specTsBytes b),
        part_info := specPartInfo b } := by
  have hlen : 1 + b.getD 0 0 + 13 + (b.getD (1 + b.getD 0 0 + 1) 0 + 1) / 2 ≤ b.length := by
    simpa [pduStructOk, specQ, specSbl] using hok
  unfold read_incoming_sms
  rw [hb]
  simp only []
  have h0 : ¬(b.isEmpty = true) := by
    rw [List.isEmpty_iff]
    intro h
    subst h
    simp at hlen
  rw [if_neg h0, if_neg (by omega : ¬(b.length ≤ 1 + b.getD 0 0)),
    if_neg (by omega : ¬(b.length < 1 + b.getD 0 0 + 1 + 2)),
    if_neg (by omega :
      ¬(b.length < 1 + b.getD 0 0 + 1 + 2 + (b.getD (1 + b.getD 0 0 + 1) 0 + 1) / 2)),
    if_neg (by omega :
      ¬(b.length < 1 + b.getD 0 0 + 1 + 2 + (b.getD (1 + b.getD 0 0 + 1) 0 + 1) / 2 + 1)),
    if_neg (by omega :
      ¬(b.length < 1 + b.getD 0 0 + 1 + 2 + (b.getD (1 + b.getD 0 0 + 1) 0 + 1) / 2 + 1 + 1)),
    if_neg (by omega :
      ¬(b.length < 1 + b.getD 0 0 + 1 + 2 + (b.getD (1 + b.getD 0 0 + 1) 0 + 1) / 2 + 1 + 1 + 7)),
    if_neg (by omega :
      ¬(b.length < 1 + b.getD 0 0 + 1 + 2 + (b.getD (1 + b.getD 0 0 + 1) 0 + 1) / 2 + 1 + 1 + 7 + 1)),
    if_neg (by omega :
      ¬(b.length < 1 + b.getD 0 0 + 1 + 2 + (b.getD (1 + b.getD 0 0 + 1) 0 + 1) / 2 + 1 + 1 + 7 + 1))]
  rw [show 1 + b.getD 0 0 + 1 + 1 = 1 + b.getD 0 0 + 2 from by omega,
    show 1 + b.getD 0 0 + 1 + 2 = 1 + b.getD 0 0 + 3 from by omega,
    show 1 + b.getD 0 0 + 3 + (b.getD (1 + b.getD 0 0 + 1) 0 + 1) / 2 + 1 =
      1 + b.getD 0 0 + 4 + (b.getD (1 + b.getD 0 0 + 1) 0 + 1) / 2 from by omega,
    show 1 + b.getD 0 0 + 4 + (b.getD (1 + b.getD 0 0 + 1) 0 + 1) / 2 + 1 =
      1 + b.getD 0 0 + 5 + (b.getD (1 + b.getD 0 0 + 1) 0 + 1) / 2 from by omega,
    show 1 + b.getD 0 0 + 5 + (b.getD (1 + b.getD 0 0 + 1) 0 + 1) / 2 + 7 =
      1 + b.getD 0 0 + 12 + (b.getD (1 + b.getD 0 0 + 1) 0 + 1) / 2 from by omega,
    show 1 + b.getD 0 0 + 12 + (b.getD (1 + b.getD 0 0 + 1) 0 + 1) / 2 + 1 =
      1 + b.getD 0 0 + 13 + (b.getD (1 + b.getD 0 0 + 1) 0 + 1) / 2 from by omega]
  simp only [specSender, specSenderBytes, specSenderLen, specSenderType, specDcs,
    specContentBytes, specUdhLen, specDataBytes, specPduType, specUdl, specTsBytes,
    specPartInfo, specQ, specSbl]

/-- The error string `read_incoming_sms` produces when the header checks
fail, selected by the same checks in the same order. -/
def specErrOf (b : List Nat) : String :=
  if b.isEmpty then "empty pdu"
  else if b.length ≤ 1 + b.getD 0 0 then "invalid pdu"
  else if b.length < 1 + b.getD 0 0 + 1 + 2 then "invalid sender header"
  else if b.length < 1 + b.getD 0 0 + 1 + 2 + (b.getD (1 + b.getD 0 0 + 1) 0 + 1) / 2 then
    "invalid sender length"
  else if b.length < 1 + b.getD 0 0 + 1 + 2 + (b.getD (1 + b.getD 0 0 + 1) 0 + 1) / 2 + 1 then
    "invalid pid"
  else if b.length < 1 + b.getD 0 0 + 1 + 2 + (b.getD (1 + b.getD 0 0 + 1) 0 + 1) / 2 + 1 + 1 then
    "invalid dcs"
  else if b.length < 1 + b.getD 0 0 + 1 + 2 + (b.getD (1 + b.getD 0 0 + 1) 0 + 1) / 2 + 1 + 1 + 7 then
    "invalid timestamp"
  else "invalid udl"

theorem read_hex_err (now : DateTimeU) (p : String) (e : String)
    (hb : hex_to_bytes p = Except.error e) :
    read_incoming_sms now p = Except.error e := by
  unfold read_incoming_sms
  rw [hb]

theorem read_err_spec (now : DateTimeU) (p : String) (b : List Nat)
    (hb : hex_to_bytes p = Except.ok b) (hok : pduStructOk b = false) :
    read_incoming_sms now p = Except.error (specErrOf b) := by
  have hlen : ¬(1 + b.getD 0 0 + 13 + (b.getD (1 + b.getD 0 0 + 1) 0 + 1) / 2 ≤ b.length) := by
    simpa [pduStructOk, specQ, specSbl] using hok
  unfold read_incoming_sms specErrOf
  rw [hb]
  simp only []
  by_cases c0 : b.isEmpty = true
  · rw [if_pos c0, if_pos c0]
  · rw [if_neg c0, if_neg c0]
    by_cases c1 : b.length ≤ 1 + b.getD 0 0
    · rw [if_pos c1, if_pos c1]
    · rw [if_neg c1, if_neg c1]
      by_cases c2 : b.length < 1 + b.getD 0 0 + 1 + 2
      · rw [if_pos c2, if_pos c2]
      · rw [if_neg c2, if_neg c2]
        by_cases c3 : b.length <
            1 + b.getD 0 0 + 1 + 2 + (b.getD (1 + b.getD 0 0 + 1) 0 + 1) / 2
        · rw [if_pos c3, if_pos c3]
        · rw [if_neg c3, if_neg c3]
          by_cases c4 : b.length <
              1 + b.getD 0 0 + 1 + 2 + (b.getD (1 + b.getD 0 0 + 1) 0 + 1) / 2 + 1
          · rw [if_pos c4, if_pos c4]
          · rw [if_neg c4, if_neg c4]
            by_cases c5 : b.length <
                1 + b.getD 0 0 + 1 + 2 + (b.getD (1 + b.getD 0 0 + 1) 0 + 1) / 2 + 1 + 1
            · rw [if_pos c5, if_pos c5]
            · rw [if_neg c5, if_neg c5]
              by_cases c6 : b.length <
                  1 + b.getD 0 0 + 1 + 2 +
                    (b.getD (1 + b.getD 0 0 + 1) 0 + 1) / 2 + 1 + 1 + 7
              · rw [if_pos c6, if_pos c6]
              · rw [if_neg c6, if_neg c6]
                by_cases c7 : b.length <
                    1 + b.getD 0 0 + 1 + 2 +
                      (b.getD (1 + b.getD 0 0 + 1) 0 + 1) / 2 + 1 + 1 + 7 + 1
                · rw [if_pos c7]
                · exfalso
                  omega

theorem specTsBytes_length (b : List Nat) (hok : pduStructOk b = true) :
    (specTsBytes b).length = 7 := by
  have hlen : 1 + b.getD 0 0 + 13 + (b.getD (1 + b.getD 0 0 + 1) 0 + 1) / 2 ≤ b.length := by
    simpa [pduStructOk, specQ, specSbl] using hok
  simp only [specTsBytes, specQ, specSbl, List.length_take, List.length_drop]
  omega

theorem decode_timestamp_indep (t1 t2 : DateTimeU) (ts : List Nat)
    (h7 : ts.length = 7) (hts : tsParses ts = true) :
    decode_timestamp t1 ts = decode_timestamp t2 ts := by
  simp [decode_timestamp, h7, hts]

/-! ## Claims C5, C6, C7 -/

/-- A fixed reference instant standing for "the time of the first decode" in
the concrete counterexamples. -/
def nowRef : DateTimeU :=
  { year := 2030, month := 6, day := 15, hour := 12, minute := 0, second := 0 }

/-- 2024-01-01 00:00:00, the valid timestamp `42 10 10 00 00 00 00` used by
the concrete PDUs below. -/
def dt2024 : DateTimeU :=
  { year := 2024, month := 1, day := 1, hour := 0, minute := 0, second := 0 }

/-- 2025-01-01 00:00:00 (first decode instant of the C5 counterexample). -/
def dt2025 : DateTimeU :=
  { year := 2025, month := 1, day := 1, hour := 0, minute := 0, second := 0 }

/-- 2026-01-01 00:00:00 (second decode instant of the C5 counterexample). -/
def dt2026 : DateTimeU :=
  { year := 2026, month := 1, day := 1, hour := 0, minute := 0, second := 0 }

/-- **C5, counterexample.** Decoding is not deterministic across time: this
PDU's timestamp bytes are all zero (month 0), so `decode_timestamp` falls
back to the current time, and decoding the same hex string at two different
instants yields records with different timestamps. -/
theorem claim_C5_counterexample :
    (read_incoming_sms dt2025 "0000008100000000000000000000").toOption ≠
      (read_incoming_sms dt2026 "0000008100000000000000000000").toOption := by
  decide

/-- **C5, amended.** Decoding depends on the decode instant only through the
timestamp fallback: the sender, content and concatenation descriptor are
identical across any two decode instants, and when the PDU's encoded
timestamp parses as a valid calendar date-time the decoded records are fully
equal (so decoding the same `p` twice yields an equal record whenever the
timestamp is valid, or whenever the clock has not moved). -/
theorem claim_C5_spec (t1 t2 : DateTimeU) (p : String) :
    ((read_incoming_sms t1 p).toOption.map
        (fun s => (s.sender, s.content, s.part_info)) =
      (read_incoming_sms t2 p).toOption.map
        (fun s => (s.sender, s.content, s.part_info)))
    ∧ (∀ b, hex_to_bytes p = Except.ok b → tsParses (specTsBytes b) = true →
        read_incoming_sms t1 p = read_incoming_sms t2 p) := by
  constructor
  · cases hhex : hex_to_bytes p with
    | error e => rw [read_hex_err t1 p e hhex, read_hex_err t2 p e hhex]
    | ok b =>
        by_cases hok : pduStructOk b = true
        · rw [read_ok_spec t1 p b hhex hok, read_ok_spec t2 p b hhex hok]
          rfl
        · rw [read_err_spec t1 p b hhex (eq_false_of_ne_true hok),
            read_err_spec t2 p b hhex (eq_false_of_ne_true hok)]
  · intro b hb hts
    by_cases hok : pduStructOk b = true
    · rw [read_ok_spec t1 p b hb hok, read_ok_spec t2 p b hb hok,
        decode_timestamp_indep t1 t2 _ (specTsBytes_length b hok) hts]
    · rw [read_err_spec t1 p b hb (eq_false_of_ne_true hok),
        read_err_spec t2 p b hb (eq_false_of_ne_true hok)]

/-- **C6, counterexample.** Truncated user data is not an error: this PDU
declares a user-data length of 5 septets but carries zero user-data bytes,
and `read_incoming_sms` still returns a record (with the content decoded
from the bytes that are present — here empty). -/
theorem claim_C6_counterexample :
    read_incoming_sms nowRef "0000008100004210100000000005" =
      Except.ok ⟨"", "", dt2024, none⟩ ∧
    hex_to_bytes "0000008100004210100000000005" =
      Except.ok [0, 0, 0, 129, 0, 0, 66, 16, 16, 0, 0, 0, 0, 5] ∧
    specUdl [0, 0, 0, 129, 0, 0, 66, 16, 16, 0, 0, 0, 0, 5] = 5 ∧
    (specDataBytes [0, 0, 0, 129, 0, 0, 66, 16, 16, 0, 0, 0, 0, 5]).length = 0 :=
  ⟨rfl, rfl, rfl, rfl⟩

/-- **C6, amended.** `read_incoming_sms` returns an error iff hex decoding
fails (odd length or an invalid hex character) or the decoded bytes are too
short for the header — SMSC field, PDU type, sender header and digits, PID,
DCS, timestamp and UDL (`pduStructOk`); truncated user data never causes an
error. -/
theorem claim_C6_spec (now : DateTimeU) (p : String) :
    (read_incoming_sms now p).toOption.isSome =
      (match hex_to_bytes p with
       | Except.ok b => pduStructOk b
       | Except.error _ => false) := by
  cases hhex : hex_to_bytes p with
  | error e => rw [read_hex_err now p e hhex]; rfl
  | ok b =>
      show (read_incoming_sms now p).toOption.isSome = pduStructOk b
      by_cases hok : pduStructOk b = true
      · rw [read_ok_spec now p b hhex hok, hok]
        rfl
      · rw [read_err_spec now p b hhex (eq_false_of_ne_true hok),
          eq_false_of_ne_true hok]
        rfl

/-- **C7, counterexample.** DCS `0x0C` has bit `0x08` set, yet the source
selects UCS-2 by `(dcs & 0x0F) == 0x08`, so this PDU (DCS `0x0C`, user data
`0x41 0x41`) is decoded as GSM-7 (`"A$"`), not as UCS-2 (which would give a
different string). -/
theorem claim_C7_counterexample :
    Nat.testBit (specDcs [0, 0, 0, 129, 0, 12, 66, 16, 16, 0, 0, 0, 0, 2, 65, 65]) 3 =
      true ∧
    read_incoming_sms nowRef "00000081000C42101000000000024141" =
      Except.ok ⟨"", "A$", dt2024, none⟩ ∧
    decode_7bit [65, 65] 2 = "A$" ∧
    "A$" ≠
      decode_ucs2 (specContentBytes
        [0, 0, 0, 129, 0, 12, 66, 16, 16, 0, 0, 0, 0, 2, 65, 65]) := by
  refine ⟨rfl, rfl, rfl, ?_⟩
  decide

/-- **C7, amended.** For every PDU accepted by `read_incoming_sms`, the user
data is decoded as UCS-2 exactly when the low nibble of the DCS byte equals
`0x08` (`dcs & 0x0F == 0x08`), and as GSM-7 otherwise — the DCS byte and the
content bytes read off the spec's layout. -/
theorem claim_C7_spec (now : DateTimeU) (p : String) (b : List Nat)
    (s : SmsData) (hb : hex_to_bytes p = Except.ok b)
    (hs : read_incoming_sms now p = Except.ok s) :
    s.content = (if specDcs b % 16 = 8 then decode_ucs2 (specContentBytes b)
                 else decode_7bit (specContentBytes b) (specUdl b)) := by
  by_cases hok : pduStructOk b = true
  · rw [read_ok_spec now p b hb hok] at hs
    injection hs with hs
    rw [← hs]
  · rw [read_err_spec now p b hb (eq_false_of_ne_true hok)] at hs
    simp at hs

/-- **C7, witness.** `claim_C7_spec` at a concrete UCS-2 PDU: DCS `0x08`,
user data `0x00 0x41`, decoded content `"A"`. -/
theorem claim_C7_witness :
    ("A" : String) =
      (if specDcs [0, 0, 0, 129, 0, 8, 66, 16, 16, 0, 0, 0, 0, 2, 0, 65] % 16 = 8 then
        decode_ucs2 (specContentBytes
          [0, 0, 0, 129, 0, 8, 66, 16, 16, 0, 0, 0, 0, 2, 0, 65])
      else
        decode_7bit (specContentBytes
            [0, 0, 0, 129, 0, 8, 66, 16, 16, 0, 0, 0, 0, 2, 0, 65])
          (specUdl [0, 0, 0, 129, 0, 8, 66, 16, 16, 0, 0, 0, 0, 2, 0, 65])) :=
  claim_C7_spec nowRef "00000081000842101000000000020041"
    [0, 0, 0, 129, 0, 8, 66, 16, 16, 0, 0, 0, 0, 2, 0, 65]
    ⟨"", "A", dt2024, none⟩ rfl rfl

/-! ## Concrete grounding runs (fidelity checks of the embedding) -/

/-- The embedding decodes the classic reference PDU (sender 27838890001,
content "hellohello", timestamp 2099-03-29 15:16:59) exactly as the 3GPP
layout prescribes. -/
theorem read_decodes_reference_pdu :
    read_incoming_sms nowRef
      "07917238010010F5040BC87238880900F10000993092516195800AE8329BFD4697D9EC37" =
      Except.ok ⟨"27838890001", "hellohello", ⟨2099, 3, 29, 15, 16, 59⟩, none⟩ :=
  rfl

/-- Spec §8, scenario 1: a `+CMTI:` URC interleaved during an `AT+CGSN`
transaction is forwarded to the URC bus once and the caller still gets the
success reply whose body is just `OK`. -/
theorem tx_interleaved_urc_scenario :
    (send_command_and_wait [] [] true
        [RecvEv.recvOk 0 ("\r\n+CMTI: \"SM\",3\r\nOK\r\n".toList)] "AT+CGSN").replies =
      [ATResponse.ok (some "OK")] ∧
    (send_command_and_wait [] [] true
        [RecvEv.recvOk 0 ("\r\n+CMTI: \"SM\",3\r\nOK\r\n".toList)] "AT+CGSN").urcs =
      ["+CMTI: \"SM\",3"] :=
  ⟨rfl, rfl⟩
